import Mathlib

/-!
Shallow embedding of the compactImg repository: the upload handler
(src/app/api/upload/route.ts), the process handler (src/unnamed/part_000,
POST of /api/process), and the client file-list merge
(src/unnamed/part_001, handleFilesUploaded). External collaborators
(blob storage, the image codec, the clock) are modelled as explicit
environments supplying the outcome of each call; a thrown JavaScript
value is modelled by Thrown, distinguishing Error objects (which carry a
message) from other thrown values.
-/

namespace CompactImg

/-- Splitting a character list at a separator character, structurally.
Kernel-computable model of the JavaScript split at a one-character
separator: every maximal separator-free run becomes one piece, with
empty pieces around adjacent or terminal separators. -/
def splitChar (sep : Char) : List Char → List (List Char)
  | [] => [[]]
  | c :: cs =>
    let r := splitChar sep cs
    if c = sep then [] :: r
    else
      match r with
      | [] => [[c]]
      | h :: t => (c :: h) :: t

/-- The JavaScript split of a string at a one-character separator. -/
def jsSplit (s : String) (sep : Char) : List String :=
  (splitChar sep s.data).map String.mk

/-- Lifecycle status of an image record (types.ts, ImageFile.status). -/
inductive Status
  | uploaded
  | queued
  | processing
  | completed
  | failed
deriving DecidableEq, Repr

/-- Editable metadata of a record (types.ts, ImageMetadata). Absent
optional fields are none. -/
structure ImageMetadata where
  title : Option String := none
  description : Option String := none
  author : Option String := none
  copyright : Option String := none
  keywords : Option (List String) := none
  customFields : Option (List (String × String)) := none
deriving DecidableEq, Repr

/-- Compression settings plus the request metadata (types.ts,
CompressionSettings, extended with the metadata object the process
route receives). stripMetadata, preserveMetadata and resize are declared
but never consulted by the processing step. -/
structure CompressionSettings where
  quality : Int
  targetFormat : String
  stripMetadata : Option Bool := none
  preserveMetadata : Option Bool := none
  resizeMaxWidth : Option Int := none
  resizeMaxHeight : Option Int := none
  metadata : ImageMetadata := {}
deriving DecidableEq, Repr

/-- One image record through its lifecycle (types.ts, ImageFile).
originalMetadata is kept abstract as a key/value list (it is never
populated by the code). -/
structure ImageFile where
  id : String
  originalName : String
  originalSize : Nat
  originalFormat : String
  compressedSize : Option Nat := none
  compressionRatio : Option ℚ := none
  status : Status
  metadata : ImageMetadata
  originalMetadata : Option (List (String × String)) := none
  processingSettings : Option CompressionSettings := none
  downloadUrl : Option String := none
  errorMessage : Option String := none
  processingTimeMs : Option Int := none
  blobUrl : Option String := none
deriving DecidableEq, Repr

/-- A thrown JavaScript value: either an Error object carrying a
message, or any other value (no usable message). -/
inductive Thrown
  | error (msg : String)
  | nonError
deriving DecidableEq, Repr

/-- The message the catch block extracts from a thrown value
(part_000 line 121): the Error message when the value is an Error,
otherwise the generic fallback. -/
def Thrown.message : Thrown → String
  | .error m => m
  | .nonError => "Unknown processing error"

/-! ## Process handler (src/unnamed/part_000, POST /api/process) -/

/-- MVP_PROCESS_FORMATS (part_000 line 8). -/
def MVP_PROCESS_FORMATS : List String := ["jpeg", "png"]

/-- Element 1 of the JavaScript split of a MIME type at the slash
(part_000 line 42); none models the undefined index. -/
def mimeSubtype (mime : String) : Option String :=
  (jsSplit mime '/').get? 1

/-- Effective target format (part_000 lines 41-43): the requested
format unless it is the string original, in which case the subtype of
the original MIME type (undefined, i.e. none, when the MIME string has
no slash). -/
def resolveTargetFormat (settings : CompressionSettings) (file : ImageFile) :
    Option String :=
  if settings.targetFormat = "original" then mimeSubtype file.originalFormat
  else some settings.targetFormat

/-- The includes test of part_000 line 45; an undefined format is never
included. -/
def supportedFormat : Option String → Bool
  | some f => MVP_PROCESS_FORMATS.contains f
  | none => false

/-- Message of the unsupported-format Error (part_000 line 46); a
missing subtype interpolates as undefined. -/
def unsupportedMsg (fmt : Option String) : String :=
  "Unsupported target format for MVP: " ++ fmt.getD "undefined" ++
    ". Only jpeg and png are supported initially."

/-- Math.round of n / 10 for an integer n: round half toward positive
infinity, i.e. the floor of n / 10 + 1 / 2. -/
def jsRound10 (n : Int) : Int := Int.fdiv (n + 5) 10

/-- PNG compression level (part_000 line 54):
Math.max(0, Math.min(9, Math.round((100 - quality) / 10))). -/
def pngCompressionLevel (quality : Int) : Int :=
  max 0 (min 9 (jsRound10 (100 - quality)))

/-- Modelled from the spec words: clamp(v, lo, hi). -/
def specClamp (v lo hi : Int) : Int := min hi (max lo v)

/-- The encoder configuration the handler applies for a given effective
format (part_000 lines 50-56). -/
inductive CodecAction
  | jpegQ (quality : Int)
  | pngLevel (level : Int)
  | noOp
deriving DecidableEq, Repr

/-- Which codec call part_000 lines 50-56 make for the effective format
and requested quality. The noOp branch is unreachable after the
supported-format check. -/
def codecAction (fmt : String) (quality : Int) : CodecAction :=
  if fmt = "jpeg" then .jpegQ quality
  else if fmt = "png" then .pngLevel (pngCompressionLevel quality)
  else .noOp

/-- The metadata update of part_000 lines 81-85: spread of the existing
record metadata with title and description overwritten from the request
(possibly with an absent value). -/
def mergeMetadata (old req : ImageMetadata) : ImageMetadata :=
  { old with title := req.title, description := req.description }

/-- Compression ratio (part_000 lines 102-104): guarded by a positive
original size, else 0. -/
def compressionRatioCalc (originalSize compressedSize : Nat) : ℚ :=
  if 0 < originalSize then
    (1 - (compressedSize : ℚ) / (originalSize : ℚ)) * 100
  else 0

/-- JavaScript truthiness of the blobUrl field (part_000 line 21):
present and not the empty string. -/
def hasBlobUrl (file : ImageFile) : Bool :=
  match file.blobUrl with
  | none => false
  | some s => s != ""

/-- Environment for one process invocation: outcome of the blob fetch,
of the codec encode (its byte length on success), of the blob put (its
public URL on success), and the two Date.now() readings (only one end
reading is ever taken in a single run). -/
structure ProcessEnv where
  fetchResult : Except Thrown Unit
  encodeResult : Except Thrown Nat
  storeResult : Except Thrown String
  startTime : Int
  endTime : Int

/-- Elapsed wall-clock time recorded in the response. -/
def elapsedMs (env : ProcessEnv) : Int := env.endTime - env.startTime

/-- Response of the process route: 400 on missing data, 200 with the
completed record, 500 with the failed record. -/
inductive ProcessResponse
  | missingData
  | success (rec : ImageFile)
  | failure (rec : ImageFile)
deriving DecidableEq, Repr

/-- HTTP status of a process response. -/
def ProcessResponse.httpStatus : ProcessResponse → Nat
  | .missingData => 400
  | .success _ => 200
  | .failure _ => 500

/-- The catch-block merge (part_000 lines 117-126): spread of the input
record with the fields the handler mutated before failing. meta is the
metadata accumulated so far (the input metadata when the failure
precedes the metadata update of lines 81-85). -/
def failedRecord (file : ImageFile) (meta : ImageMetadata) (t : Thrown)
    (env : ProcessEnv) : ImageFile :=
  { file with
      status := .failed
      metadata := meta
      errorMessage := some t.message
      processingTimeMs := some (elapsedMs env) }

/-- The success merge (part_000 lines 98-115). -/
def completedRecord (file : ImageFile) (settings : CompressionSettings)
    (meta : ImageMetadata) (compressedSize : Nat) (url : String)
    (env : ProcessEnv) : ImageFile :=
  { file with
      status := .completed
      metadata := meta
      compressedSize := some compressedSize
      compressionRatio := some (compressionRatioCalc file.originalSize compressedSize)
      downloadUrl := some url
      processingTimeMs := some (elapsedMs env)
      processingSettings := some settings }

/-- The process route handler (part_000 lines 18-128). The codec
configuration (codecAction) and the EXIF tag map only shape the encoded
bytes, which the environment abstracts as encodeResult; the response
record is built exactly as in the source. -/
def processPOST (imageFile : ImageFile) (settings : CompressionSettings)
    (env : ProcessEnv) : ProcessResponse :=
  if hasBlobUrl imageFile then
    match env.fetchResult with
    | .error t => .failure (failedRecord imageFile imageFile.metadata t env)
    | .ok _ =>
      let fmt := resolveTargetFormat settings imageFile
      if supportedFormat fmt then
        let meta := mergeMetadata imageFile.metadata settings.metadata
        match env.encodeResult with
        | .error t => .failure (failedRecord imageFile meta t env)
        | .ok size =>
          match env.storeResult with
          | .error t => .failure (failedRecord imageFile meta t env)
          | .ok url => .success (completedRecord imageFile settings meta size url env)
      else .failure (failedRecord imageFile imageFile.metadata
        (.error (unsupportedMsg fmt)) env)
  else .missingData

/-- The first exception the try block of processPOST raises, in source
order: fetch, unsupported format, encode, store; none when the run
succeeds. -/
def firstFailure (imageFile : ImageFile) (settings : CompressionSettings)
    (env : ProcessEnv) : Option Thrown :=
  match env.fetchResult with
  | .error t => some t
  | .ok _ =>
    let fmt := resolveTargetFormat settings imageFile
    if supportedFormat fmt then
      match env.encodeResult with
      | .error t => some t
      | .ok _ =>
        match env.storeResult with
        | .error t => some t
        | .ok _ => none
    else some (.error (unsupportedMsg fmt))

/-! ## Upload handler (src/app/api/upload/route.ts, POST /api/upload) -/

/-- MAX_FILE_SIZE_BYTES (route.ts lines 8-9): 10 MB. -/
def MAX_FILE_SIZE_BYTES : Nat := 10 * 1024 * 1024

/-- ALLOWED_MIME_TYPES (route.ts line 12). -/
def ALLOWED_MIME_TYPES : List String :=
  ["image/jpeg", "image/png", "image/webp", "image/avif"]

/-- One file of the multipart form: declared name, declared content
type, size in bytes. -/
structure UploadFile where
  name : String
  type : String
  size : Nat
deriving DecidableEq, Repr

/-- Result of a blob put: public URL and pathname. -/
structure Blob where
  url : String
  pathname : String
deriving DecidableEq, Repr

/-- Per-file environment: the nanoid value generated for the file and
the outcome of the put call for it (consulted only when the put is
reached). -/
structure FileEnv where
  uniqueId : String
  putResult : Except Thrown Blob

/-- Extension extraction (route.ts line 43): last dot-separated piece
of the name when the name has a dot, else bin. -/
def fileExtension (name : String) : String :=
  if name.data.contains '.' then (jsSplit name '.').getLastD "bin" else "bin"

/-- Storage path for the raw upload (route.ts line 44). -/
def uploadBlobPath (uniqueId : String) (f : UploadFile) : String :=
  "uploads/" ++ uniqueId ++ "." ++ fileExtension f.name

/-- Rejection message for a disallowed content type (route.ts line 31). -/
def typeErrorMsg (f : UploadFile) : String :=
  "Unsupported file type: " ++ f.name ++ " (" ++ f.type ++ ")"

/-- Size in MB rendered with two decimals, modelling toFixed(2) by
decimal rounding half up (exact IEEE 754 formatting is out of scope;
no claim inspects this text). -/
def mbToFixed2 (size : Nat) : String :=
  let h : Nat := (size * 200 + 1048576) / 2097152
  let frac := h % 100
  toString (h / 100) ++ "." ++
    (if frac < 10 then "0" ++ toString frac else toString frac)

/-- Rejection message for an oversize file (route.ts line 36). -/
def sizeErrorMsg (f : UploadFile) : String :=
  "File too large: " ++ f.name ++ " (" ++ mbToFixed2 f.size ++ " MB)"

/-- Error message when the put call itself rejects (route.ts line 69). -/
def storeErrorMsg (f : UploadFile) : String :=
  "Failed to upload " ++ f.name ++ "."

/-- Contribution of one file to the batch: at most one record, at most
one error, and the storage path the handler attempted to write (none
when validation rejected the file before any put). -/
structure StepResult where
  record : Option ImageFile
  error : Option String
  putPath : Option String
deriving DecidableEq, Repr

/-- The record built for an accepted, stored file (route.ts lines 55-64). -/
def uploadedRecord (f : UploadFile) (blob : Blob) : ImageFile :=
  { id := blob.pathname
    originalName := f.name
    originalSize := f.size
    originalFormat := f.type
    status := .uploaded
    metadata := {}
    blobUrl := some blob.url }

/-- Body of the per-file loop (route.ts lines 28-71): content-type
check, then size check, then the put call. -/
def uploadStep (f : UploadFile) (env : FileEnv) : StepResult :=
  if !(ALLOWED_MIME_TYPES.contains f.type) then
    { record := none, error := some (typeErrorMsg f), putPath := none }
  else if f.size > MAX_FILE_SIZE_BYTES then
    { record := none, error := some (sizeErrorMsg f), putPath := none }
  else
    match env.putResult with
    | .ok blob =>
      { record := some (uploadedRecord f blob), error := none,
        putPath := some (uploadBlobPath env.uniqueId f) }
    | .error _ =>
      { record := none, error := some (storeErrorMsg f),
        putPath := some (uploadBlobPath env.uniqueId f) }

/-- The whole loop: uploaded records and error messages accumulated in
file order. -/
def uploadBatch : List (UploadFile × FileEnv) → List ImageFile × List String
  | [] => ([], [])
  | p :: rest =>
    let s := uploadStep p.1 p.2
    let r := uploadBatch rest
    (s.record.toList ++ r.1, s.error.toList ++ r.2)

/-- Response of the upload route (route.ts lines 21-87). -/
inductive UploadResponse
  | noFiles
  | allFailed (error : String)
  | multiStatus (uploadedFiles : List ImageFile) (uploadErrors : List String)
  | ok (records : List ImageFile)
deriving DecidableEq, Repr

/-- HTTP status of an upload response. -/
def UploadResponse.httpStatus : UploadResponse → Nat
  | .noFiles => 400
  | .allFailed _ => 400
  | .multiStatus _ _ => 207
  | .ok _ => 200

/-- Aggregated error payload when nothing succeeded (route.ts line 75). -/
def allFailedMsg (errors : List String) : String :=
  "Upload failed. Errors: " ++ String.intercalate ", " errors

/-- The upload route handler (route.ts lines 17-88). -/
def uploadPOST (files : List (UploadFile × FileEnv)) : UploadResponse :=
  if files.isEmpty then .noFiles
  else
    let r := uploadBatch files
    if r.1.isEmpty && !r.2.isEmpty then .allFailed (allFailedMsg r.2)
    else if !r.2.isEmpty then .multiStatus r.1 r.2
    else .ok r.1

/-! ## Client file-list merge (src/unnamed/part_001, handleFilesUploaded) -/

/-- Merge of newly uploaded records into the collection
(part_001 lines 113-121): records whose blobUrl already occurs among
the existing blobUrls are dropped, the rest appended in order. -/
def handleFilesUploaded (prevFiles uploadedFiles : List ImageFile) :
    List ImageFile :=
  let existingIds := prevFiles.map (fun f => f.blobUrl)
  let newFiles := uploadedFiles.filter (fun f => !(existingIds.contains f.blobUrl))
  prevFiles ++ newFiles

/-- The failure contract of one process invocation: the response is the
500 failure response carrying the input record with status failed, the
given error message, the elapsed time, and the identity fields
unchanged. -/
def failsWith (file : ImageFile) (settings : CompressionSettings)
    (env : ProcessEnv) (msg : String) : Prop :=
  ∃ rec, processPOST file settings env = .failure rec ∧
    (processPOST file settings env).httpStatus = 500 ∧
    rec.status = .failed ∧
    rec.errorMessage = some msg ∧
    rec.processingTimeMs = some (elapsedMs env) ∧
    rec.id = file.id ∧ rec.originalName = file.originalName ∧
    rec.originalSize = file.originalSize ∧
    rec.originalFormat = file.originalFormat ∧
    rec.blobUrl = file.blobUrl

/-! ## Concrete sample inputs for witnesses and counterexamples -/

/-- A fresh record as the upload handler returns it: no downloadUrl, no
errorMessage. -/
def sampleFile : ImageFile :=
  { id := "uploads/s1.png", originalName := "s1.png", originalSize := 1000,
    originalFormat := "image/png", status := .uploaded, metadata := {},
    blobUrl := some "https://blob.local/uploads/s1.png" }

/-- A process request carrying a title and a description. -/
def sampleSettings : CompressionSettings :=
  { quality := 80, targetFormat := "png",
    metadata := { title := some "Sunset", description := some "Evening sky" } }

/-- An environment in which every external call succeeds. -/
def okEnv : ProcessEnv :=
  { fetchResult := .ok (), encodeResult := .ok 400,
    storeResult := .ok "https://blob.local/processed/s1.png",
    startTime := 0, endTime := 25 }

/-- An environment in which the codec encode throws. -/
def encodeFailEnv : ProcessEnv :=
  { fetchResult := .ok (), encodeResult := .error (.error "encode failed"),
    storeResult := .ok "https://blob.local/processed/s1.png",
    startTime := 0, endTime := 7 }

/-- An environment in which the result store throws. -/
def storeFailEnv : ProcessEnv :=
  { fetchResult := .ok (), encodeResult := .ok 400,
    storeResult := .error (.error "store failed"),
    startTime := 0, endTime := 9 }

/-- An environment in which the blob fetch throws. -/
def fetchFailEnv : ProcessEnv :=
  { fetchResult := .error (.error "Failed to fetch blob: Not Found"),
    encodeResult := .ok 400,
    storeResult := .ok "https://blob.local/processed/s1.png",
    startTime := 3, endTime := 9 }

/-- A record that already completed one processing round and hence
carries a downloadUrl, submitted for reprocessing. -/
def staleFile : ImageFile :=
  { id := "uploads/x.png", originalName := "x.png", originalSize := 1000,
    originalFormat := "image/png", compressedSize := some 500,
    compressionRatio := some 50, status := .completed, metadata := {},
    downloadUrl := some "https://blob.local/processed/x.png",
    processingTimeMs := some 10,
    blobUrl := some "https://blob.local/uploads/x.png" }

/-! ## Run lemmas for the process handler -/

/-- A fetch failure is caught and merged before the metadata update. -/
theorem run_fetch_error (file : ImageFile) (settings : CompressionSettings)
    (env : ProcessEnv) (hpre : hasBlobUrl file = true) (t : Thrown)
    (hf : env.fetchResult = .error t) :
    processPOST file settings env =
      .failure (failedRecord file file.metadata t env) := by
  simp [processPOST, hpre, hf]

/-- An unsupported effective format is caught before the metadata
update. -/
theorem run_unsupported (file : ImageFile) (settings : CompressionSettings)
    (env : ProcessEnv) (hpre : hasBlobUrl file = true)
    (hfmt : supportedFormat (resolveTargetFormat settings file) = false)
    (hf : env.fetchResult = .ok ()) :
    processPOST file settings env =
      .failure (failedRecord file file.metadata
        (.error (unsupportedMsg (resolveTargetFormat settings file))) env) := by
  simp [processPOST, hpre, hf, hfmt]

/-- An encode failure is caught after the metadata update. -/
theorem run_encode_error (file : ImageFile) (settings : CompressionSettings)
    (env : ProcessEnv) (hpre : hasBlobUrl file = true)
    (hfmt : supportedFormat (resolveTargetFormat settings file) = true)
    (hf : env.fetchResult = .ok ()) (t : Thrown)
    (he : env.encodeResult = .error t) :
    processPOST file settings env =
      .failure (failedRecord file
        (mergeMetadata file.metadata settings.metadata) t env) := by
  simp [processPOST, hpre, hf, hfmt, he]

/-- A store failure is caught after the metadata update. -/
theorem run_store_error (file : ImageFile) (settings : CompressionSettings)
    (env : ProcessEnv) (hpre : hasBlobUrl file = true)
    (hfmt : supportedFormat (resolveTargetFormat settings file) = true)
    (hf : env.fetchResult = .ok ()) (n : Nat) (t : Thrown)
    (he : env.encodeResult = .ok n) (hs : env.storeResult = .error t) :
    processPOST file settings env =
      .failure (failedRecord file
        (mergeMetadata file.metadata settings.metadata) t env) := by
  simp [processPOST, hpre, hf, hfmt, he, hs]

/-- A fully successful run produces the completed merge. -/
theorem run_success (file : ImageFile) (settings : CompressionSettings)
    (env : ProcessEnv) (hpre : hasBlobUrl file = true)
    (hfmt : supportedFormat (resolveTargetFormat settings file) = true)
    (hf : env.fetchResult = .ok ()) (n : Nat) (url : String)
    (he : env.encodeResult = .ok n) (hs : env.storeResult = .ok url) :
    processPOST file settings env =
      .success (completedRecord file settings
        (mergeMetadata file.metadata settings.metadata) n url env) := by
  simp [processPOST, hpre, hf, hfmt, he, hs]

/-- Every failure response is a catch-block merge of the input record,
with the metadata either untouched or already overwritten. -/
theorem processPOST_failure_inv (file : ImageFile)
    (settings : CompressionSettings) (env : ProcessEnv) (rec : ImageFile)
    (hpre : hasBlobUrl file = true)
    (h : processPOST file settings env = .failure rec) :
    ∃ meta t,
      (meta = file.metadata ∨
        meta = mergeMetadata file.metadata settings.metadata) ∧
      rec = failedRecord file meta t env := by
  unfold processPOST at h
  rw [hpre] at h
  simp only [eq_self_iff_true, if_true] at h
  split at h
  · exact ⟨file.metadata, _, Or.inl rfl,
      (ProcessResponse.failure.injEq _ _ |>.mp h).symm⟩
  · split at h
    · split at h
      · exact ⟨mergeMetadata file.metadata settings.metadata, _, Or.inr rfl,
          (ProcessResponse.failure.injEq _ _ |>.mp h).symm⟩
      · split at h
        · exact ⟨mergeMetadata file.metadata settings.metadata, _, Or.inr rfl,
            (ProcessResponse.failure.injEq _ _ |>.mp h).symm⟩
        · exact absurd h (by simp)
    · exact ⟨file.metadata, _, Or.inl rfl,
        (ProcessResponse.failure.injEq _ _ |>.mp h).symm⟩

/-- Every success response is the completed merge of the input record. -/
theorem processPOST_success_inv (file : ImageFile)
    (settings : CompressionSettings) (env : ProcessEnv) (rec : ImageFile)
    (hpre : hasBlobUrl file = true)
    (h : processPOST file settings env = .success rec) :
    ∃ n url,
      rec = completedRecord file settings
        (mergeMetadata file.metadata settings.metadata) n url env := by
  unfold processPOST at h
  rw [hpre] at h
  simp only [eq_self_iff_true, if_true] at h
  split at h
  · exact absurd h (by simp)
  · split at h
    · split at h
      · exact absurd h (by simp)
      · split at h
        · exact absurd h (by simp)
        · exact ⟨_, _, (ProcessResponse.success.injEq _ _ |>.mp h).symm⟩
    · exact absurd h (by simp)

/-! ## Claim theorems -/

/-- Any failed-run merge witnesses the failure contract for the message
of the thrown value. -/
theorem failsWith_of_run (file : ImageFile) (settings : CompressionSettings)
    (env : ProcessEnv) (meta : ImageMetadata) (t : Thrown)
    (h : processPOST file settings env =
      .failure (failedRecord file meta t env)) :
    failsWith file settings env t.message := by
  refine ⟨failedRecord file meta t env, h, ?_, ?_, ?_, ?_, ?_, ?_, ?_, ?_, ?_⟩ <;>
    simp [h, failedRecord, ProcessResponse.httpStatus]

/-- C1: for every process request passing the precondition check, an
exception thrown at the fetch, the unsupported-format rejection, the
encode, or the store step is caught at the single top-level handler:
the response has HTTP status 500 and carries the input record merged
with status failed, errorMessage equal to the message of the thrown
value (or the generic fallback for a non-Error value), and
processingTimeMs equal to the elapsed time; a webp target in
particular yields such a failed record, never an unhandled fault. -/
theorem C1_top_level_catch (file : ImageFile) (settings : CompressionSettings)
    (env : ProcessEnv) (hpre : hasBlobUrl file = true) :
    (∀ t, env.fetchResult = .error t → failsWith file settings env t.message) ∧
    (supportedFormat (resolveTargetFormat settings file) = false →
      env.fetchResult = .ok () →
      failsWith file settings env
        (unsupportedMsg (resolveTargetFormat settings file))) ∧
    (∀ t, supportedFormat (resolveTargetFormat settings file) = true →
      env.fetchResult = .ok () → env.encodeResult = .error t →
      failsWith file settings env t.message) ∧
    (∀ n t, supportedFormat (resolveTargetFormat settings file) = true →
      env.fetchResult = .ok () → env.encodeResult = .ok n →
      env.storeResult = .error t →
      failsWith file settings env t.message) ∧
    (settings.targetFormat = "webp" → ∃ msg, failsWith file settings env msg) := by
  have h1 : ∀ t, env.fetchResult = .error t →
      failsWith file settings env t.message := fun t ht =>
    failsWith_of_run _ _ _ _ _ (run_fetch_error file settings env hpre t ht)
  have h2 : supportedFormat (resolveTargetFormat settings file) = false →
      env.fetchResult = .ok () →
      failsWith file settings env
        (unsupportedMsg (resolveTargetFormat settings file)) := fun hs hf =>
    failsWith_of_run _ _ _ _ _ (run_unsupported file settings env hpre hs hf)
  refine ⟨h1, h2, ?_, ?_, ?_⟩
  · exact fun t hs hf he =>
      failsWith_of_run _ _ _ _ _ (run_encode_error file settings env hpre hs hf t he)
  · exact fun n t hs hf he hst =>
      failsWith_of_run _ _ _ _ _
        (run_store_error file settings env hpre hs hf n t he hst)
  · intro hw
    cases hf : env.fetchResult with
    | error t => exact ⟨t.message, h1 t hf⟩
    | ok u =>
      have hs : supportedFormat (resolveTargetFormat settings file) = false := by
        rw [resolveTargetFormat, if_neg (by rw [hw]; decide), hw]
        decide
      exact ⟨unsupportedMsg (resolveTargetFormat settings file), h2 hs hf⟩

/-- Witness for C1: a concrete record and a webp request fail with the
unsupported-format message and a 500 response. -/
theorem C1_top_level_catch_witness :
    hasBlobUrl
      { id := "uploads/w1.webp", originalName := "w1.webp",
        originalSize := 2048, originalFormat := "image/webp",
        status := .uploaded, metadata := {},
        blobUrl := some "https://blob.local/uploads/w1.webp" } = true ∧
    ∃ msg, failsWith
      { id := "uploads/w1.webp", originalName := "w1.webp",
        originalSize := 2048, originalFormat := "image/webp",
        status := .uploaded, metadata := {},
        blobUrl := some "https://blob.local/uploads/w1.webp" }
      { quality := 80, targetFormat := "webp" }
      { fetchResult := .ok (), encodeResult := .ok 512,
        storeResult := .ok "https://blob.local/processed/w1.webp",
        startTime := 100, endTime := 140 } msg := by
  refine ⟨by decide, ?_⟩
  exact (C1_top_level_catch _ _ _ (by decide)).2.2.2.2 rfl

/-- C2: for every process request whose effective target format is png,
the handler configures the png encoder with compression level
clamp(round((100 - quality) / 10), 0, 9); quality 100 gives level 0,
quality 60 gives 4, quality 70 gives 3, and the out-of-domain quality 0
clamps to level 9 rather than erroring. -/
theorem C2_png_compression_level (settings : CompressionSettings)
    (file : ImageFile)
    (hpng : resolveTargetFormat settings file = some "png") :
    codecAction "png" settings.quality =
      .pngLevel (specClamp (jsRound10 (100 - settings.quality)) 0 9) ∧
    pngCompressionLevel 100 = 0 ∧ pngCompressionLevel 60 = 4 ∧
    pngCompressionLevel 70 = 3 ∧ pngCompressionLevel 0 = 9 := by
  refine ⟨?_, by decide, by decide, by decide, by decide⟩
  rw [codecAction, if_neg (by decide), if_pos rfl]
  congr 1
  unfold pngCompressionLevel specClamp
  omega

/-- Witness for C2 at quality 60 with a direct png target. -/
theorem C2_png_compression_level_witness :
    resolveTargetFormat { quality := 60, targetFormat := "png" }
      { id := "uploads/p1.png", originalName := "p1.png",
        originalSize := 1000, originalFormat := "image/png",
        status := .uploaded, metadata := {} } = some "png" ∧
    codecAction "png" (60 : Int) =
      .pngLevel (specClamp (jsRound10 (100 - 60)) 0 9) := by
  refine ⟨by decide, ?_⟩
  exact (C2_png_compression_level { quality := 60, targetFormat := "png" }
    { id := "uploads/p1.png", originalName := "p1.png",
      originalSize := 1000, originalFormat := "image/png",
      status := .uploaded, metadata := {} } (by decide)).1

/-- C5: the effective target format is the requested format whenever
the request is not the string original, and is derived from the subtype
of the original MIME type when it is; in particular original together
with image/png selects the png codec. -/
theorem C5_effective_target_format (settings : CompressionSettings)
    (file : ImageFile) :
    (settings.targetFormat ≠ "original" →
      resolveTargetFormat settings file = some settings.targetFormat) ∧
    (settings.targetFormat = "original" →
      resolveTargetFormat settings file = mimeSubtype file.originalFormat) ∧
    (settings.targetFormat = "original" → file.originalFormat = "image/png" →
      resolveTargetFormat settings file = some "png" ∧
      codecAction "png" settings.quality =
        .pngLevel (pngCompressionLevel settings.quality)) := by
  refine ⟨fun h => ?_, fun h => ?_, fun h h2 => ⟨?_, ?_⟩⟩
  · rw [resolveTargetFormat, if_neg h]
  · rw [resolveTargetFormat, if_pos h]
  · rw [resolveTargetFormat, if_pos h, h2]
    decide
  · rw [codecAction, if_neg (by decide), if_pos rfl]

/-- Witness for C5: the original/image-png round trip at quality 80. -/
theorem C5_effective_target_format_witness :
    resolveTargetFormat { quality := 80, targetFormat := "original" }
      { id := "uploads/p2.png", originalName := "p2.png",
        originalSize := 5000, originalFormat := "image/png",
        status := .uploaded, metadata := {} } = some "png" ∧
    codecAction "png" (80 : Int) = .pngLevel (pngCompressionLevel 80) :=
  (C5_effective_target_format { quality := 80, targetFormat := "original" }
    { id := "uploads/p2.png", originalName := "p2.png",
      originalSize := 5000, originalFormat := "image/png",
      status := .uploaded, metadata := {} }).2.2 rfl rfl

/-- C6: on every successful run the recorded compression ratio is
(1 - compressedSize / originalSize) * 100 for a positive original size
and 0 for a zero original size, with no division fault; original size
1000 with compressed size 400 gives exactly 60. -/
theorem C6_compression_ratio (file : ImageFile)
    (settings : CompressionSettings) (env : ProcessEnv) (n : Nat)
    (url : String) (hpre : hasBlobUrl file = true)
    (hfmt : supportedFormat (resolveTargetFormat settings file) = true)
    (hf : env.fetchResult = .ok ()) (he : env.encodeResult = .ok n)
    (hs : env.storeResult = .ok url) :
    ∃ rec, processPOST file settings env = .success rec ∧
      rec.compressedSize = some n ∧
      (0 < file.originalSize →
        rec.compressionRatio =
          some ((1 - (n : ℚ) / (file.originalSize : ℚ)) * 100)) ∧
      (file.originalSize = 0 → rec.compressionRatio = some 0) ∧
      compressionRatioCalc 1000 400 = 60 := by
  refine ⟨_, run_success file settings env hpre hfmt hf n url he hs,
    ?_, ?_, ?_, ?_⟩
  · rfl
  · intro hpos
    simp [completedRecord, compressionRatioCalc, hpos]
  · intro hzero
    simp [completedRecord, compressionRatioCalc, hzero]
  · norm_num [compressionRatioCalc]

/-- Witness for C6: a concrete successful run from 1000 bytes down to
400 bytes records a ratio of exactly 60. -/
theorem C6_compression_ratio_witness :
    ∃ rec, processPOST
      { id := "uploads/p3.png", originalName := "p3.png",
        originalSize := 1000, originalFormat := "image/png",
        status := .uploaded, metadata := {},
        blobUrl := some "https://blob.local/uploads/p3.png" }
      { quality := 80, targetFormat := "png" }
      { fetchResult := .ok (), encodeResult := .ok 400,
        storeResult := .ok "https://blob.local/processed/p3.png",
        startTime := 0, endTime := 25 } = .success rec ∧
      rec.compressedSize = some 400 ∧
      (0 < (1000 : Nat) →
        rec.compressionRatio = some ((1 - (400 : ℚ) / (1000 : ℚ)) * 100)) ∧
      ((1000 : Nat) = 0 → rec.compressionRatio = some 0) ∧
      compressionRatioCalc 1000 400 = 60 :=
  C6_compression_ratio
    { id := "uploads/p3.png", originalName := "p3.png",
      originalSize := 1000, originalFormat := "image/png",
      status := .uploaded, metadata := {},
      blobUrl := some "https://blob.local/uploads/p3.png" }
    { quality := 80, targetFormat := "png" }
    { fetchResult := .ok (), encodeResult := .ok 400,
      storeResult := .ok "https://blob.local/processed/p3.png",
      startTime := 0, endTime := 25 } 400
    "https://blob.local/processed/p3.png" (by decide) (by decide) rfl rfl rfl

/-- C8: on every successful run the returned record overwrites the
metadata title and description from the request, preserves every other
metadata field of the input record, and leaves the identity fields
(id, originalName, originalSize, originalFormat, blobUrl) unchanged. -/
theorem C8_merge_frame (file : ImageFile) (settings : CompressionSettings)
    (env : ProcessEnv) (n : Nat) (url : String)
    (hpre : hasBlobUrl file = true)
    (hfmt : supportedFormat (resolveTargetFormat settings file) = true)
    (hf : env.fetchResult = .ok ()) (he : env.encodeResult = .ok n)
    (hs : env.storeResult = .ok url) :
    ∃ rec, processPOST file settings env = .success rec ∧
      rec.status = .completed ∧
      rec.metadata.title = settings.metadata.title ∧
      rec.metadata.description = settings.metadata.description ∧
      rec.metadata.author = file.metadata.author ∧
      rec.metadata.copyright = file.metadata.copyright ∧
      rec.metadata.keywords = file.metadata.keywords ∧
      rec.metadata.customFields = file.metadata.customFields ∧
      rec.id = file.id ∧ rec.originalName = file.originalName ∧
      rec.originalSize = file.originalSize ∧
      rec.originalFormat = file.originalFormat ∧
      rec.blobUrl = file.blobUrl := by
  refine ⟨_, run_success file settings env hpre hfmt hf n url he hs,
    ?_, ?_, ?_, ?_, ?_, ?_, ?_, ?_, ?_, ?_, ?_, ?_⟩ <;>
    simp [completedRecord, mergeMetadata]

/-- Witness for C8: a concrete successful run applies the request title
and keeps every identity field. -/
theorem C8_merge_frame_witness :
    ∃ rec, processPOST sampleFile sampleSettings okEnv = .success rec ∧
      rec.status = .completed ∧
      rec.metadata.title = sampleSettings.metadata.title ∧
      rec.metadata.description = sampleSettings.metadata.description ∧
      rec.metadata.author = sampleFile.metadata.author ∧
      rec.metadata.copyright = sampleFile.metadata.copyright ∧
      rec.metadata.keywords = sampleFile.metadata.keywords ∧
      rec.metadata.customFields = sampleFile.metadata.customFields ∧
      rec.id = sampleFile.id ∧ rec.originalName = sampleFile.originalName ∧
      rec.originalSize = sampleFile.originalSize ∧
      rec.originalFormat = sampleFile.originalFormat ∧
      rec.blobUrl = sampleFile.blobUrl :=
  C8_merge_frame sampleFile sampleSettings okEnv 400
    "https://blob.local/processed/s1.png" (by decide) (by decide) rfl rfl rfl

/-- C7 counterexample: reprocessing a record that already carries a
downloadUrl and failing at the encode step returns a failed record that
still carries the stale downloadUrl, so a failed response can carry a
downloadUrl. -/
theorem C7_counterexample :
    processPOST staleFile { quality := 80, targetFormat := "jpeg" }
      encodeFailEnv =
    .failure
      { id := "uploads/x.png", originalName := "x.png", originalSize := 1000,
        originalFormat := "image/png", compressedSize := some 500,
        compressionRatio := some 50, status := .failed, metadata := {},
        downloadUrl := some "https://blob.local/processed/x.png",
        errorMessage := some "encode failed",
        processingTimeMs := some 7,
        blobUrl := some "https://blob.local/uploads/x.png" } := by
  decide

/-- C7 amended: for an input record carrying neither a downloadUrl nor
an errorMessage (as every record fresh from the upload handler does),
every failure response has status failed, no downloadUrl and an
errorMessage, and every success response has status completed, an
errorMessage-free record and a downloadUrl; for reprocessed records the
stale downloadUrl survives a failure and the stale errorMessage
survives a success, because neither path clears the other field. -/
theorem C7_amended_fresh_invariant (file : ImageFile)
    (settings : CompressionSettings) (env : ProcessEnv)
    (hpre : hasBlobUrl file = true)
    (hdl : file.downloadUrl = none) (herr : file.errorMessage = none) :
    (∀ rec, processPOST file settings env = .failure rec →
      rec.status = .failed ∧ rec.downloadUrl = none ∧
      rec.errorMessage ≠ none) ∧
    (∀ rec, processPOST file settings env = .success rec →
      rec.status = .completed ∧ rec.errorMessage = none ∧
      rec.downloadUrl ≠ none) := by
  constructor
  · intro rec h
    obtain ⟨meta, t, -, rfl⟩ :=
      processPOST_failure_inv file settings env rec hpre h
    simp [failedRecord, hdl]
  · intro rec h
    obtain ⟨n, url, rfl⟩ :=
      processPOST_success_inv file settings env rec hpre h
    simp [completedRecord, herr]

/-- Witness for the amended C7: a fresh record failing at the fetch
step yields a failed record with no downloadUrl and an errorMessage. -/
theorem C7_amended_fresh_invariant_witness :
    processPOST sampleFile sampleSettings fetchFailEnv =
      .failure (failedRecord sampleFile sampleFile.metadata
        (.error "Failed to fetch blob: Not Found") fetchFailEnv) ∧
    ((failedRecord sampleFile sampleFile.metadata
        (.error "Failed to fetch blob: Not Found") fetchFailEnv).status =
          .failed ∧
     (failedRecord sampleFile sampleFile.metadata
        (.error "Failed to fetch blob: Not Found") fetchFailEnv).downloadUrl =
          none ∧
     (failedRecord sampleFile sampleFile.metadata
        (.error "Failed to fetch blob: Not Found") fetchFailEnv).errorMessage ≠
          none) := by
  refine ⟨by decide, ?_⟩
  exact (C7_amended_fresh_invariant sampleFile sampleSettings fetchFailEnv
    (by decide) rfl rfl).1 _ (by decide)

/-- C10: a failure at the encode or the store step returns a failed
record whose metadata already carries the request title and
description, because the handler overwrites the record metadata before
encoding; only a failure at the fetch or the format-resolution step
leaves the metadata unchanged. -/
theorem C10_metadata_not_atomic (file : ImageFile)
    (settings : CompressionSettings) (env : ProcessEnv)
    (hpre : hasBlobUrl file = true) :
    (∀ t, supportedFormat (resolveTargetFormat settings file) = true →
      env.fetchResult = .ok () → env.encodeResult = .error t →
      ∃ rec, processPOST file settings env = .failure rec ∧
        rec.status = .failed ∧
        rec.metadata.title = settings.metadata.title ∧
        rec.metadata.description = settings.metadata.description) ∧
    (∀ n t, supportedFormat (resolveTargetFormat settings file) = true →
      env.fetchResult = .ok () → env.encodeResult = .ok n →
      env.storeResult = .error t →
      ∃ rec, processPOST file settings env = .failure rec ∧
        rec.status = .failed ∧
        rec.metadata.title = settings.metadata.title ∧
        rec.metadata.description = settings.metadata.description) ∧
    (∀ t, env.fetchResult = .error t →
      ∃ rec, processPOST file settings env = .failure rec ∧
        rec.metadata = file.metadata) ∧
    (env.fetchResult = .ok () →
      supportedFormat (resolveTargetFormat settings file) = false →
      ∃ rec, processPOST file settings env = .failure rec ∧
        rec.metadata = file.metadata) := by
  refine ⟨?_, ?_, ?_, ?_⟩
  · intro t hfmt hf he
    exact ⟨_, run_encode_error file settings env hpre hfmt hf t he,
      by simp [failedRecord], by simp [failedRecord, mergeMetadata],
      by simp [failedRecord, mergeMetadata]⟩
  · intro n t hfmt hf he hs
    exact ⟨_, run_store_error file settings env hpre hfmt hf n t he hs,
      by simp [failedRecord], by simp [failedRecord, mergeMetadata],
      by simp [failedRecord, mergeMetadata]⟩
  · intro t hf
    exact ⟨_, run_fetch_error file settings env hpre t hf,
      by simp [failedRecord]⟩
  · intro hf hfmt
    exact ⟨_, run_unsupported file settings env hpre hfmt hf,
      by simp [failedRecord]⟩

/-- Witness for C10: a concrete encode failure still returns the
request title in the failed record. -/
theorem C10_metadata_not_atomic_witness :
    ∃ rec, processPOST sampleFile sampleSettings encodeFailEnv =
        .failure rec ∧
      rec.status = .failed ∧
      rec.metadata.title = sampleSettings.metadata.title ∧
      rec.metadata.description = sampleSettings.metadata.description :=
  (C10_metadata_not_atomic sampleFile sampleSettings encodeFailEnv
    (by decide)).1 (.error "encode failed") (by decide) rfl rfl

/-! ## Upload batch lemmas -/

/-- The per-file loop distributes over batch concatenation: files are
handled independently. -/
theorem uploadBatch_append (b1 b2 : List (UploadFile × FileEnv)) :
    uploadBatch (b1 ++ b2) =
      ((uploadBatch b1).1 ++ (uploadBatch b2).1,
       (uploadBatch b1).2 ++ (uploadBatch b2).2) := by
  induction b1 with
  | nil => simp [uploadBatch]
  | cons p rest ih => simp [uploadBatch, ih]

/-- Each file contributes a record exactly when it contributes no
error. -/
theorem uploadStep_record_none_iff (f : UploadFile) (env : FileEnv) :
    (uploadStep f env).record = none ↔ (uploadStep f env).error ≠ none := by
  unfold uploadStep
  split
  · simp
  · split
    · simp
    · split <;> simp

/-- The batch yields no record exactly when every file yields none. -/
theorem uploadBatch_fst_nil_iff (files : List (UploadFile × FileEnv)) :
    (uploadBatch files).1 = [] ↔
      ∀ p ∈ files, (uploadStep p.1 p.2).record = none := by
  induction files with
  | nil => simp [uploadBatch]
  | cons p rest ih =>
    simp only [uploadBatch, List.mem_cons, List.append_eq_nil]
    constructor
    · rintro ⟨h1, h2⟩ q hq
      rcases hq with rfl | hq
      · cases hrec : (uploadStep q.1 q.2).record with
        | none => rfl
        | some v => rw [hrec] at h1; cases h1
      · exact ih.mp h2 q hq
    · intro h
      refine ⟨?_, ih.mpr (fun q hq => h q (Or.inr hq))⟩
      rw [h p (Or.inl rfl)]
      rfl

/-- The batch yields no error exactly when every file yields none. -/
theorem uploadBatch_snd_nil_iff (files : List (UploadFile × FileEnv)) :
    (uploadBatch files).2 = [] ↔
      ∀ p ∈ files, (uploadStep p.1 p.2).error = none := by
  induction files with
  | nil => simp [uploadBatch]
  | cons p rest ih =>
    simp only [uploadBatch, List.mem_cons, List.append_eq_nil]
    constructor
    · rintro ⟨h1, h2⟩ q hq
      rcases hq with rfl | hq
      · cases herr : (uploadStep q.1 q.2).error with
        | none => rfl
        | some v => rw [herr] at h1; cases h1
      · exact ih.mp h2 q hq
    · intro h
      refine ⟨?_, ih.mpr (fun q hq => h q (Or.inr hq))⟩
      rw [h p (Or.inl rfl)]
      rfl

/-- C3: a file whose declared content type is not among the four
allowed image types, or whose size exceeds the 10 MB ceiling, is
skipped with a collected per-file error message and no storage write is
attempted for it; validation precedes storage, and the remaining files
of the batch are handled independently of it. -/
theorem C3_upload_validation (f : UploadFile) (env : FileEnv) :
    (f.type ∉ ALLOWED_MIME_TYPES →
      uploadStep f env =
        { record := none, error := some (typeErrorMsg f), putPath := none }) ∧
    (f.type ∈ ALLOWED_MIME_TYPES → f.size > MAX_FILE_SIZE_BYTES →
      uploadStep f env =
        { record := none, error := some (sizeErrorMsg f), putPath := none }) ∧
    (∀ b1 b2 : List (UploadFile × FileEnv),
      uploadBatch (b1 ++ b2) =
        ((uploadBatch b1).1 ++ (uploadBatch b2).1,
         (uploadBatch b1).2 ++ (uploadBatch b2).2)) := by
  refine ⟨fun h => ?_, fun h hsz => ?_, uploadBatch_append⟩
  · have hc : ALLOWED_MIME_TYPES.contains f.type = false :=
      Bool.eq_false_iff.mpr (fun hh => h (List.elem_iff.mp hh))
    simp only [uploadStep, hc, Bool.not_false, if_true]
  · have hc : ALLOWED_MIME_TYPES.contains f.type = true := List.elem_iff.mpr h
    simp only [uploadStep, hc, Bool.not_true, if_false, Bool.false_eq_true,
      ite_false]
    rw [if_pos hsz]

/-- Witness for C3: a gif upload is rejected with no write attempted. -/
theorem C3_upload_validation_witness :
    uploadStep { name := "a.gif", type := "image/gif", size := 100 }
      { uniqueId := "n1", putResult := .ok { url := "u", pathname := "p" } } =
    { record := none,
      error := some (typeErrorMsg
        { name := "a.gif", type := "image/gif", size := 100 }),
      putPath := none } :=
  (C3_upload_validation { name := "a.gif", type := "image/gif", size := 100 }
    { uniqueId := "n1",
      putResult := .ok { url := "u", pathname := "p" } }).1 (by decide)

/-- C4: for a non-empty batch, if every file is rejected the response
is 400 with the aggregated rejection reasons; if at least one file
succeeds and at least one fails it is 207 with both the records and the
reasons; if every file succeeds it is 200 with just the records. -/
theorem C4_batch_response (files : List (UploadFile × FileEnv))
    (hne : files ≠ []) :
    ((∀ p ∈ files, (uploadStep p.1 p.2).record = none) →
      uploadPOST files = .allFailed (allFailedMsg (uploadBatch files).2) ∧
      (uploadPOST files).httpStatus = 400) ∧
    (((∃ p ∈ files, (uploadStep p.1 p.2).record ≠ none) ∧
      (∃ p ∈ files, (uploadStep p.1 p.2).error ≠ none)) →
      uploadPOST files =
        .multiStatus (uploadBatch files).1 (uploadBatch files).2 ∧
      (uploadPOST files).httpStatus = 207) ∧
    ((∀ p ∈ files, (uploadStep p.1 p.2).error = none) →
      uploadPOST files = .ok (uploadBatch files).1 ∧
      (uploadPOST files).httpStatus = 200) := by
  have hF : files.isEmpty = false := by
    cases files with
    | nil => exact absurd rfl hne
    | cons p rest => rfl
  refine ⟨fun hall => ?_, fun hmix => ?_, fun hok => ?_⟩
  · have h1 : (uploadBatch files).1 = [] :=
      (uploadBatch_fst_nil_iff files).mpr hall
    have h2 : (uploadBatch files).2 ≠ [] := by
      intro h0
      obtain ⟨p, hp⟩ := List.exists_mem_of_ne_nil files hne
      have herrnone := (uploadBatch_snd_nil_iff files).mp h0 p hp
      exact (uploadStep_record_none_iff p.1 p.2).mp (hall p hp) herrnone
    have h2b : (uploadBatch files).2.isEmpty = false := by
      cases hc : (uploadBatch files).2 with
      | nil => exact absurd hc h2
      | cons e es => rfl
    rw [uploadPOST, if_neg (by rw [hF]; exact Bool.false_ne_true)]
    simp [h1, h2b, UploadResponse.httpStatus]
  · obtain ⟨⟨p, hp, hrec⟩, ⟨q, hq, herr⟩⟩ := hmix
    have h1 : (uploadBatch files).1 ≠ [] := fun h0 =>
      hrec ((uploadBatch_fst_nil_iff files).mp h0 p hp)
    have h2 : (uploadBatch files).2 ≠ [] := fun h0 =>
      herr ((uploadBatch_snd_nil_iff files).mp h0 q hq)
    have h1b : (uploadBatch files).1.isEmpty = false := by
      cases hc : (uploadBatch files).1 with
      | nil => exact absurd hc h1
      | cons e es => rfl
    have h2b : (uploadBatch files).2.isEmpty = false := by
      cases hc : (uploadBatch files).2 with
      | nil => exact absurd hc h2
      | cons e es => rfl
    rw [uploadPOST, if_neg (by rw [hF]; exact Bool.false_ne_true)]
    simp [h1b, h2b, UploadResponse.httpStatus]
  · have h2 : (uploadBatch files).2 = [] :=
      (uploadBatch_snd_nil_iff files).mpr hok
    rw [uploadPOST, if_neg (by rw [hF]; exact Bool.false_ne_true)]
    simp [h2, UploadResponse.httpStatus]

/-- Witness for C4: a single rejected gif yields the aggregated 400
response. -/
theorem C4_batch_response_witness :
    uploadPOST
      [({ name := "a.gif", type := "image/gif", size := 100 },
        { uniqueId := "n1", putResult := .ok { url := "u", pathname := "p" } })] =
      .allFailed (allFailedMsg (uploadBatch
        [({ name := "a.gif", type := "image/gif", size := 100 },
          { uniqueId := "n1",
            putResult := .ok { url := "u", pathname := "p" } })]).2) ∧
    (uploadPOST
      [({ name := "a.gif", type := "image/gif", size := 100 },
        { uniqueId := "n1",
          putResult := .ok { url := "u", pathname := "p" } })]).httpStatus =
      400 :=
  (C4_batch_response
    [({ name := "a.gif", type := "image/gif", size := 100 },
      { uniqueId := "n1", putResult := .ok { url := "u", pathname := "p" } })]
    (List.cons_ne_nil _ _)).1 (by decide)

/-- C9: merging uploaded records into the client collection keeps the
existing records as a prefix and appends, in order, exactly the new
records whose blobUrl occurs on no existing record; the key compared is
the storage reference, not the record id. -/
theorem C9_dedup_merge (prevFiles uploadedFiles : List ImageFile) :
    (handleFilesUploaded prevFiles uploadedFiles).take prevFiles.length =
      prevFiles ∧
    (handleFilesUploaded prevFiles uploadedFiles).drop prevFiles.length =
      uploadedFiles.filter
        (fun f => decide (∀ g ∈ prevFiles, g.blobUrl ≠ f.blobUrl)) := by
  unfold handleFilesUploaded
  refine ⟨List.take_left _ _, ?_⟩
  rw [List.drop_left]
  apply List.filter_congr
  intro f _
  by_cases hm : f.blobUrl ∈ prevFiles.map (fun g => g.blobUrl)
  · have hc : (prevFiles.map (fun g => g.blobUrl)).contains f.blobUrl = true :=
      List.elem_iff.mpr hm
    rw [hc]
    symm
    rw [Bool.not_true, decide_eq_false_iff_not]
    intro hall
    obtain ⟨g, hg, he⟩ := List.mem_map.mp hm
    exact hall g hg he
  · have hc : (prevFiles.map (fun g => g.blobUrl)).contains f.blobUrl = false :=
      Bool.eq_false_iff.mpr (fun hh => hm (List.elem_iff.mp hh))
    rw [hc]
    symm
    rw [Bool.not_false, decide_eq_true_eq]
    intro g hg he
    exact hm (List.mem_map.mpr ⟨g, hg, he⟩)

end CompactImg
